import Mathlib

/-!
Shallow embedding of the Greenplum error-log parser
(`src/greenplum_parser.py`) and proofs about it.

Python strings are modelled as `List Char`; a Python function that can
return `None` is modelled with `Option`.  The module-level
`errcode_mapping` (loaded from an external JSON file) is modelled as a
parameter `m : List Char → Option Int` (`dict.get` with default `None`),
and the external `ast.literal_eval` escape decoder as a parameter
`decode : List Char → Option (List Char)` (`none` models a raised
exception).  Index-based `while` loops of the source are embedded as
fuel-indexed structural recursions; every top-level wrapper supplies
`length + 1` fuel, which strictly exceeds the number of iterations of the
corresponding Python loop (each iteration advances the index by at least
one and the loops stop at or just past the end of the string), so the
fuel-exhaustion branches are never reached on the wrappers.  Regular
expressions of the source (`re` module) are unfolded into explicit
leftmost-match scans over `List Char`; character classes `\w`, `\s` are
modelled over ASCII.
-/

/-- Characters of a string literal, the model of a Python `str`. -/
def pstr (s : String) : List Char := s.data

/-- Python `str.isspace` / regex `\s` over ASCII. -/
def pyIsSpace (c : Char) : Bool :=
  c = ' ' || c = '\t' || c = '\n' || c = '\r' || c = '\x0B' || c = '\x0C'

/-- Python `str.strip()`: drop leading and trailing whitespace. -/
def pyStrip (s : List Char) : List Char :=
  ((s.dropWhile pyIsSpace).reverse.dropWhile pyIsSpace).reverse

/-- Regex `\w` over ASCII: letters, digits and underscore. -/
def isWordChar (c : Char) : Bool := c.isAlphanum || c = '_'

/-- Python slice `s[a:b]` (with the usual clamping semantics). -/
def listSlice (s : List Char) (a b : Nat) : List Char := (s.drop a).take (b - a)

/-- Length of the maximal `\s*` run of `s` starting at position `p`. -/
def wsRunLen (s : List Char) (p : Nat) : Nat := ((s.drop p).takeWhile pyIsSpace).length

/-- Length of the maximal `\w*` run of `s` starting at position `p`. -/
def wordRunLen (s : List Char) (p : Nat) : Nat := ((s.drop p).takeWhile isWordChar).length

/-- Index of the first character from position `p` on satisfying `q`. -/
def firstIdxFrom (q : Char → Bool) : List Char → Option Nat
  | [] => none
  | c :: rest => if q c then some 0 else (firstIdxFrom q rest).map (· + 1)

/-! ## preprocess_log (lines 30-37)

`log.replace('\\n', '')`, `log.replace('\\r\\n', '')` and
`log.replace('\\\\', '\\')`: each is a left-to-right non-overlapping
replacement of a fixed two- or four-character pattern. -/

/-- Model of `log.replace('\\n', '')`: delete each backslash-`n` pair. -/
def removeEscN : List Char → List Char
  | '\\' :: 'n' :: rest => removeEscN rest
  | c :: rest => c :: removeEscN rest
  | [] => []

/-- Model of `log.replace('\\r\\n', '')`: delete each `\r\n` escape pair. -/
def removeEscRN : List Char → List Char
  | '\\' :: 'r' :: '\\' :: 'n' :: rest => removeEscRN rest
  | c :: rest => c :: removeEscRN rest
  | [] => []

/-- Model of `log.replace('\\\\', '\\')`: collapse doubled backslashes. -/
def collapseDoubleBackslash : List Char → List Char
  | '\\' :: '\\' :: rest => '\\' :: collapseDoubleBackslash rest
  | c :: rest => c :: collapseDoubleBackslash rest
  | [] => []

/-- `preprocess_log` (lines 30-37). -/
def preprocess_log (log : List Char) : List Char :=
  collapseDoubleBackslash (removeEscRN (removeEscN log))

/-! ## split_arguments (lines 39-88) -/

/-- Loop state of `split_arguments`: accumulated arguments, the argument
being built, the parenthesis depth, the ternary depth, the in-string flag
and the escape flag.  The two depth counters never go below zero in the
source (`if depth > 0: depth -= 1`), so `Nat` with truncated subtraction
is exact. -/
structure SplitState where
  args : List (List Char)
  current : List Char
  depth : Nat
  ternary : Nat
  inString : Bool
  escape : Bool
deriving DecidableEq

/-- One iteration of the `while` loop of `split_arguments` (lines 50-85)
on character `c`. -/
def splitStep (st : SplitState) (c : Char) : SplitState :=
  if st.escape then { st with current := st.current ++ [c], escape := false }
  else if c = '\\' then { st with current := st.current ++ [c], escape := true }
  else if st.inString then
    if c = '"' then { st with current := st.current ++ [c], inString := false }
    else { st with current := st.current ++ [c] }
  else if c = '"' then { st with current := st.current ++ [c], inString := true }
  else if c = '(' then { st with current := st.current ++ [c], depth := st.depth + 1 }
  else if c = ')' then { st with current := st.current ++ [c], depth := st.depth - 1 }
  else if c = '?' then { st with current := st.current ++ [c], ternary := st.ternary + 1 }
  else if c = ':' then { st with current := st.current ++ [c], ternary := st.ternary - 1 }
  else if c = ',' ∧ st.depth = 0 ∧ st.ternary = 0 then
    { st with args := st.args ++ [pyStrip st.current], current := [] }
  else { st with current := st.current ++ [c] }

/-- `split_arguments` (lines 39-88). -/
def split_arguments (s : List Char) : List (List Char) :=
  let st := s.foldl splitStep ⟨[], [], 0, 0, false, false⟩
  if pyStrip st.current ≠ [] then st.args ++ [pyStrip st.current] else st.args

/-! ## find_function_call_end_offset (lines 90-117) -/

/-- Quote-skipping inner loop shared (verbatim, up to the loop phrasing)
by lines 112-115, 187-189 and 228-230: advance until an unescaped `"` or
the end of the text, returning the stop position.  All call sites pass a
position that is at least 1, so the `pos - 1` look-back never truncates. -/
def quoteStop (s : List Char) : Nat → Nat → Nat
  | 0, pos => pos
  | fuel + 1, pos =>
    if pos < s.length then
      if s.getD pos ' ' = '"' ∧ s.getD (pos - 1) ' ' ≠ '\\' then pos
      else quoteStop s fuel (pos + 1)
    else pos

/-- Parenthesis-balancing loop of `find_function_call_end_offset`
(lines 103-116).  Note the opening `"` here is recognised without an
escape check, unlike the two other scanners. -/
def ffceoLoop (s : List Char) : Nat → Nat → Nat → Nat
  | 0, pos, _ => pos
  | fuel + 1, pos, count =>
    if pos < s.length ∧ 0 < count then
      if s.getD pos ' ' = '(' then ffceoLoop s fuel (pos + 1) (count + 1)
      else if s.getD pos ' ' = ')' then ffceoLoop s fuel (pos + 1) (count - 1)
      else if s.getD pos ' ' = '"' then
        ffceoLoop s fuel (quoteStop s (s.length + 1) (pos + 1) + 1) count
      else ffceoLoop s fuel (pos + 1) count
    else pos

/-- `find_function_call_end_offset` (lines 90-117).  The regex
`re.search(r'\(\s*', s[start_pos:])` locates the first `(` at or after
`start_pos`; when none exists the function returns `start_pos`. -/
def find_function_call_end_offset (s : List Char) (start_pos : Nat) : Nat :=
  match firstIdxFrom (fun c => c = '(') (s.drop start_pos) with
  | none => start_pos
  | some k => ffceoLoop s (s.length + 1) (start_pos + k + 1) 1 - 1

/-! ## get_last_function_call_offset (lines 119-141) -/

/-- Word-boundary test `\b` of the pattern at position `i`: start of text
or a non-word character just before. -/
def boundaryAt (s : List Char) (i : Nat) : Bool :=
  if i = 0 then true
  else
    match s.get? (i - 1) with
    | some c => !isWordChar c
    | none => true

/-- Match of `\b[A-Za-z_]\w*\s*\(` at position `i`; returns the position
one past the `(` (the regex match end) on success.  The greedy `\w*` and
`\s*` runs are deterministic here: giving back characters can never make
the following literal `(` match. -/
def identMatchAt (s : List Char) (i : Nat) : Option Nat :=
  if boundaryAt s i then
    match s.get? i with
    | some c =>
      if c.isAlpha || c = '_' then
        if s.get? (i + 1 + wordRunLen s (i + 1) +
            wsRunLen s (i + 1 + wordRunLen s (i + 1))) = some '(' then
          some (i + 1 + wordRunLen s (i + 1) +
            wsRunLen s (i + 1 + wordRunLen s (i + 1)) + 1)
        else none
      else none
    | none => none
  else none

/-- `pattern.search(statement, i)` for `\b[A-Za-z_]\w*\s*\(`: the
leftmost position at or after `i` where the pattern matches, with the
match end. -/
def identSearch (s : List Char) : Nat → Nat → Option (Nat × Nat)
  | 0, _ => none
  | fuel + 1, i =>
    match identMatchAt s i with
    | some e => some (i, e)
    | none => if i < s.length then identSearch s fuel (i + 1) else none

/-- The `while True` loop of `get_last_function_call_offset`
(lines 129-137): repeatedly search, accumulate the maximal call end. -/
def gllcoLoop (s : List Char) : Nat → Nat → Nat → Nat
  | 0, _, last => last
  | fuel + 1, i, last =>
    match identSearch s (s.length + 1) i with
    | none => last
    | some (fs, en) => gllcoLoop s fuel en (max last (find_function_call_end_offset s fs))

/-- `get_last_function_call_offset` (lines 119-141).  In Python an empty
statement would give `length - 1 = -1`; with `Nat` truncation this is 0.
No caller passes an empty statement. -/
def get_last_function_call_offset (statement : List Char) : Nat :=
  let lo := gllcoLoop statement (statement.length + 1) 0 0
  if lo = 0 then statement.length - 1 else lo

/-! ## The capture loop of extract_logging_statements (lines 178-191)
and the argument scan of find_function_calls (lines 221-231).  The two
loops are textually identical in the source: balance parentheses from
just past the keyword's `(`, recognising an opening `"` only when not
escaped, and return the position one past the closing `)` (or just past
the end of the text when unbalanced). -/

def balancedScan (s : List Char) : Nat → Nat → Nat → Nat
  | 0, pos, _ => pos
  | fuel + 1, pos, count =>
    if pos < s.length ∧ 0 < count then
      if s.getD pos ' ' = '(' then balancedScan s fuel (pos + 1) (count + 1)
      else if s.getD pos ' ' = ')' then balancedScan s fuel (pos + 1) (count - 1)
      else if s.getD pos ' ' = '"' ∧ (pos = 0 ∨ s.getD (pos - 1) ' ' ≠ '\\') then
        balancedScan s fuel (quoteStop s (s.length + 1) (pos + 1) + 1) count
      else balancedScan s fuel (pos + 1) count
    else pos

/-- `end_index` computed by the capture loop of
`extract_logging_statements` for a keyword match ending at `start`
(lines 178-191): `i` starts at `match.end()` with `paren_count = 1`. -/
def captureEnd (code : List Char) (start : Nat) : Nat :=
  balancedScan code (code.length + 1) start 1

/-! ## find_function_calls (lines 205-235) -/

/-- Match of `(name1|name2|...)\s*\(` at position `i`: the alternation is
tried left to right exactly as Python's `re` does (an earlier name whose
occurrence is not followed by `\s*\(` falls through to the next name).
Returns the matched name and the match end (one past the `(`). -/
def namesMatchAt (s : List Char) (names : List (List Char)) (i : Nat) :
    Option (List Char × Nat) :=
  names.findSome? fun nm =>
    if nm.isPrefixOf (s.drop i) then
      let k := i + nm.length + wsRunLen s (i + nm.length)
      if s.get? k = some '(' then some (nm, k + 1) else none
    else none

/-- `pattern.search(s, i)` for `(name1|...)\s*\(`: leftmost match at or
after `i`. -/
def namesSearch (s : List Char) (names : List (List Char)) :
    Nat → Nat → Option (List Char × Nat)
  | 0, _ => none
  | fuel + 1, i =>
    match namesMatchAt s names i with
    | some r => some r
    | none => if i < s.length then namesSearch s names fuel (i + 1) else none

/-- The `while` loop of `find_function_calls` (lines 214-234): search the
next call, scan its balanced argument span, record
`(func_name, args_str)`, resume just past the closing parenthesis. -/
def ffcLoop (s : List Char) (names : List (List Char)) :
    Nat → Nat → List (List Char × List Char)
  | 0, _ => []
  | fuel + 1, i =>
    if i < s.length then
      match namesSearch s names (s.length + 1) i with
      | none => []
      | some (nm, strt) =>
        let pos := balancedScan s (s.length + 1) strt 1
        (nm, listSlice s strt (pos - 1)) :: ffcLoop s names fuel pos
    else []

/-- `find_function_calls` (lines 205-235). -/
def find_function_calls (s : List Char) (names : List (List Char)) :
    List (List Char × List Char) :=
  ffcLoop s names (s.length + 1) 0

/-! ## extract_ereport (lines 237-298) -/

/-- `errmsg_functions` (line 258). -/
def errmsgFns : List (List Char) :=
  [pstr "errmsg", pstr "errmsg_internal", pstr "errmsg_plural"]

/-- `errcode_functions` (line 259). -/
def errcodeFns : List (List Char) :=
  [pstr "errcode", pstr "errcode_for_file_access"]

/-- `all_functions` (line 260). -/
def allLogFns : List (List Char) :=
  errmsgFns ++ errcodeFns ++ [pstr "errdetail", pstr "errhint", pstr "errcontext"]

/-- Template extraction shared by lines 275-282 and 313-320: if the raw
first sub-argument is surrounded by double quotes, strip them and attempt
`ast.literal_eval` on the re-quoted interior (`decode`); if the decoder
fails (`none`, the model of a raised exception) keep the quote-stripped
raw text; an unquoted argument is kept as is. -/
def decodeTemplate (decode : List Char → Option (List Char)) (raw : List Char) :
    List Char :=
  if raw.head? = some '"' ∧ raw.getLast? = some '"' then
    let inner := (raw.drop 1).dropLast
    match decode inner with
    | some t => t
    | none => inner
  else raw

/-- Result dictionary of `extract_ereport` / `extract_elog`. -/
structure EreportInfo where
  severity_level : List Char
  errmsg_template : Option (List Char)
  errmsg_variables : List (List Char)
  errcode : Option (List Char)
  errcode_numeric : Option Int
deriving DecidableEq

/-- Mutable locals of the `for func in functions` loop of
`extract_ereport` (lines 264-290). -/
structure EreportFold where
  template : Option (List Char)
  vars : List (List Char)
  errcode : Option (List Char)
  numeric : Option Int
deriving DecidableEq

/-- One iteration of the `for func in functions` loop (lines 269-290).
Note `errmsg_variables` is assigned only when the message call has more
than one sub-argument, and `errcode_numeric` is assigned only when the
code symbol starts with `ERRCODE_`; otherwise the previous values
persist. -/
def ereportStep (decode : List Char → Option (List Char))
    (m : List Char → Option Int) (st : EreportFold)
    (call : List Char × List Char) : EreportFold :=
  if call.1 ∈ errmsgFns then
    match split_arguments call.2 with
    | [] => st
    | s0 :: rest =>
      { st with
        template := some (decodeTemplate decode (pyStrip s0)),
        vars := if rest = [] then st.vars else rest }
  else if call.1 ∈ errcodeFns then
    let ec := pyStrip call.2
    { st with
      errcode := some ec,
      numeric := if (pstr "ERRCODE_").isPrefixOf ec then m ec else st.numeric }
  else st

/-- Lines 255-298 of `extract_ereport`, once at least two top-level
arguments are known to exist: build the result dictionary. -/
def buildEreport (decode : List Char → Option (List Char))
    (m : List Char → Option Int) (args : List (List Char)) : EreportInfo :=
  let severity := pyStrip (args.headD [])
  let error_spec := List.intercalate [','] (args.drop 1)
  let st := (find_function_calls error_spec allLogFns).foldl
    (ereportStep decode m) ⟨none, [], none, none⟩
  ⟨severity, st.template, st.vars, st.errcode, st.numeric⟩

/-- Lines 251-253: fewer than two top-level arguments fail. -/
def ereportArgs (decode : List Char → Option (List Char))
    (m : List Char → Option Int) (args : List (List Char)) : Option EreportInfo :=
  if args.length < 2 then none else some (buildEreport decode m args)

/-- Lines 246-249: the text after the keyword must be parenthesized. -/
def ereportBody (decode : List Char → Option (List Char))
    (m : List Char → Option Int) (content : List Char) : Option EreportInfo :=
  if content.head? = some '(' ∧ content.getLast? = some ')' then
    ereportArgs decode m (split_arguments ((content.drop 1).dropLast))
  else none

/-- `extract_ereport` (lines 237-298). -/
def extract_ereport (decode : List Char → Option (List Char))
    (m : List Char → Option Int) (log : List Char) : Option EreportInfo :=
  if (pstr "ereport").isPrefixOf (pyStrip log) then
    ereportBody decode m (pyStrip ((pyStrip log).drop 7))
  else none

/-! ## extract_elog (lines 300-333)

The regex `elog\s*\(\s*(.*?)\s*,\s*(.*)\s*\)$` (with `re.DOTALL`) is
unfolded into an explicit scan.  At a candidate position: literal `elog`,
a maximal `\s*` run, a literal `(`, a maximal `\s*` run reaching position
`p`.  The lazy `(.*?)\s*,` makes group 1 end at the first `,` at or after
`p` with its immediately preceding whitespace run (down to `p`) absorbed
by the `\s*`.  The trailing `(.*)\s*\)$` is greedy, so group 2 extends to
the last `)` that sits at an end-of-string anchor position; `$` without
`re.MULTILINE` matches at the end of the string or just before a final
newline, so the text must end in `)` or `)\n`.  The comma is then
necessarily before that `)`, and the `\s*` after it absorbs the maximal
whitespace run following the comma into neither group. -/

/-- Position of the `)` matched by `\)$`: the last character, or the one
before a final newline. -/
def elogEndIdx (s : List Char) : Option Nat :=
  match s.getLast? with
  | some ')' => some (s.length - 1)
  | some '\n' =>
    if 2 ≤ s.length ∧ s.get? (s.length - 2) = some ')' then some (s.length - 2)
    else none
  | _ => none

/-- First `,` at or after position `p`. -/
def firstCommaFrom (s : List Char) (p : Nat) : Option Nat :=
  (firstIdxFrom (fun c => c = ',') (s.drop p)).map (p + ·)

/-- Drop trailing whitespace (the part of group 1 absorbed by `\s*,`). -/
def dropTrailingWs (s : List Char) : List Char :=
  (s.reverse.dropWhile pyIsSpace).reverse

/-- Match of the whole `extract_elog` regex at position `i`, returning
the two capture groups. -/
def elogMatchAt (s : List Char) (i : Nat) : Option (List Char × List Char) :=
  if (pstr "elog").isPrefixOf (s.drop i) then
    let a := i + 4 + wsRunLen s (i + 4)
    if s.get? a = some '(' then
      let p := a + 1 + wsRunLen s (a + 1)
      match firstCommaFrom s p, elogEndIdx s with
      | some c, some j =>
        if c < j then
          some (dropTrailingWs (listSlice s p c),
                listSlice s (c + 1 + wsRunLen s (c + 1)) j)
        else none
      | _, _ => none
    else none
  else none

/-- `pattern.search(log)`: leftmost position where the `elog` regex
matches. -/
def elogSearch (s : List Char) : Nat → Nat → Option (List Char × List Char)
  | 0, _ => none
  | fuel + 1, i =>
    match elogMatchAt s i with
    | some r => some r
    | none => if i < s.length then elogSearch s fuel (i + 1) else none

/-- `extract_elog` (lines 300-333). -/
def extract_elog (decode : List Char → Option (List Char)) (log : List Char) :
    Option EreportInfo :=
  match elogSearch log (log.length + 1) 0 with
  | none => none
  | some (g1, g2) =>
    let severity := pyStrip g1
    match split_arguments (pyStrip g2) with
    | [] => some ⟨severity, none, [], none, none⟩
    | a0 :: rest =>
      some ⟨severity, some (decodeTemplate decode (pyStrip a0)), rest, none, none⟩

/-! ## clean_errmsg_template (lines 335-350) -/

/-- Conversion characters of the printf specifier pattern (line 343). -/
def isConvChar (c : Char) : Bool := (pstr "diuoxXfFeEgGaAcCsSpn%").contains c

/-- Length (in characters after the `%`) consumed by a match of the
specifier regex
`%(?:\d+\$)?[+-]?(?:0| )?(?:\d+|\*)?(?:\.(?:\d+|\*))?(?:hh|h|ll|l|j|z|t|L)?[diuoxXfFeEgGaAcCsSpn%]`
at a `%`, or `none` when it does not match.  Each optional group is
decided greedily; for this pattern greedy choices are deterministic: a
maximal digit run can only be given back to characters that are
themselves digits, and no group's first character can begin the group
that follows it, so backtracking can never turn failure into success. -/
def fmtSpecLen (l : List Char) : Option Nat :=
  let d0 := (l.takeWhile Char.isDigit).length
  let (n1, l1) :=
    if d0 ≠ 0 ∧ l.get? d0 = some '$' then (d0 + 1, l.drop (d0 + 1)) else (0, l)
  let (n2, l2) :=
    if l1.head? = some '+' ∨ l1.head? = some '-' then (1, l1.drop 1) else (0, l1)
  let (n3, l3) :=
    if l2.head? = some '0' ∨ l2.head? = some ' ' then (1, l2.drop 1) else (0, l2)
  let dw := (l3.takeWhile Char.isDigit).length
  let (n4, l4) :=
    if dw ≠ 0 then (dw, l3.drop dw)
    else if l3.head? = some '*' then (1, l3.drop 1) else (0, l3)
  let (n5, l5) :=
    if l4.head? = some '.' then
      let dp := ((l4.drop 1).takeWhile Char.isDigit).length
      if dp ≠ 0 then (1 + dp, l4.drop (1 + dp))
      else if (l4.drop 1).head? = some '*' then (2, l4.drop 2) else (0, l4)
    else (0, l4)
  let (n6, l6) :=
    if (pstr "hh").isPrefixOf l5 then (2, l5.drop 2)
    else if l5.head? = some 'h' then (1, l5.drop 1)
    else if (pstr "ll").isPrefixOf l5 then (2, l5.drop 2)
    else if l5.head? = some 'l' then (1, l5.drop 1)
    else if l5.head? = some 'j' ∨ l5.head? = some 'z' ∨ l5.head? = some 't' ∨
        l5.head? = some 'L' then (1, l5.drop 1)
    else (0, l5)
  match l6.head? with
  | some c => if isConvChar c then some (n1 + n2 + n3 + n4 + n5 + n6 + 1) else none
  | none => none

/-- `re.sub(pattern, '', t)` for the specifier pattern: every match
starts with `%`, so the leftmost-match scan only attempts at `%`. -/
def stripFmtF : Nat → List Char → List Char
  | 0, l => l
  | fuel + 1, l =>
    match l with
    | [] => []
    | '%' :: rest =>
      match fmtSpecLen rest with
      | some n => stripFmtF fuel (rest.drop n)
      | none => '%' :: stripFmtF fuel rest
    | c :: rest => c :: stripFmtF fuel rest

/-- `re.sub(r'\\[nrt]', '', cleaned)` (line 346). -/
def removeEscNRT : List Char → List Char
  | '\\' :: c :: rest =>
    if c = 'n' ∨ c = 'r' ∨ c = 't' then removeEscNRT rest
    else '\\' :: removeEscNRT (c :: rest)
  | c :: rest => c :: removeEscNRT rest
  | [] => []

/-- Squeeze runs of spaces to a single space (after whitespace has been
mapped to spaces this is `re.sub(r'\s+', ' ', _)`). -/
def squeezeSpaces : List Char → List Char
  | ' ' :: ' ' :: rest => squeezeSpaces (' ' :: rest)
  | c :: rest => c :: squeezeSpaces rest
  | [] => []

/-- `clean_errmsg_template` (lines 335-350) on a non-`None` template;
the `None` short-circuit lives at the call site (`cleanOpt`). -/
def clean_errmsg_template (t : List Char) : List Char :=
  let c1 := stripFmtF (t.length + 1) t
  let c2 := removeEscNRT c1
  let c3 := c2.filter (fun c => c != '"' && c != '\'')
  pyStrip (squeezeSpaces (c3.map (fun c => if pyIsSpace c then ' ' else c)))

/-! ## extract_info_from_log (lines 352-423) -/

/-- Result dictionary of `extract_info_from_log`. -/
structure LogInfo where
  log : List Char
  severity_level : Option (List Char)
  errmsg_template : Option (List Char)
  errmsg_variables : Option (List (List Char))
  errcode : Option (List Char)
  errcode_numeric : Option Int
  errmsg_clean : Option (List Char)
  script_parse_error : Option (List Char)
deriving DecidableEq

/-- Lines 361-363 / 389-391: `errmsg_clean` is computed only when the
template is truthy; a `None` or empty-string template leaves it `None`. -/
def cleanOpt : Option (List Char) → Option (List Char)
  | some t => if t = [] then none else some (clean_errmsg_template t)
  | none => none

/-- A failure record: every field `None` except the log text and the
reason. -/
def failInfo (log msg : List Char) : LogInfo :=
  ⟨log, none, none, none, none, none, none, some msg⟩

/-- Lines 358-423 of `extract_info_from_log`, after the reassignment
`log = preprocess_log(log)`: dispatch on the leading keyword and build
the result dictionary. -/
def classifyLog (decode : List Char → Option (List Char))
    (m : List Char → Option Int) (log : List Char) : LogInfo :=
  if (pstr "ereport").isPrefixOf (pyStrip log) then
    match extract_ereport decode m log with
    | some info =>
      ⟨log, some info.severity_level, info.errmsg_template,
       some info.errmsg_variables, info.errcode, info.errcode_numeric,
       cleanOpt info.errmsg_template, none⟩
    | none => failInfo log (pstr "Failed to parse ereport log")
  else if (pstr "elog").isPrefixOf (pyStrip log) then
    match extract_elog decode log with
    | some info =>
      ⟨log, some info.severity_level, info.errmsg_template,
       some info.errmsg_variables, none, none,
       cleanOpt info.errmsg_template, none⟩
    | none => failInfo log (pstr "Failed to parse elog log")
  else failInfo log (pstr "Unknown log type")

/-- `extract_info_from_log` (lines 352-423). -/
def extract_info_from_log (decode : List Char → Option (List Char))
    (m : List Char → Option Int) (log0 : List Char) : LogInfo :=
  classifyLog decode m (preprocess_log log0)

/-! ## A concrete escape decoder

`ast.literal_eval('"' + raw + '"')` is Python standard library code, not
part of this repository; the extraction functions take it as the
parameter `decode`.  For concrete evaluations we supply this model of it
for ASCII input: an unescaped quote or a raw newline inside the literal
and a trailing backslash are syntax errors; recognised escapes decode to
their characters; an unrecognised escape keeps both characters (Python
emits a warning but succeeds).  The `\u`, `\U`, `\N` forms are not
modelled and map to `none`; no input in this development contains them. -/

def octVal (c : Char) : Nat := c.toNat - 48

def isOctDigit (c : Char) : Bool := '0' ≤ c && c ≤ '7'

def hexVal (c : Char) : Option Nat :=
  if '0' ≤ c ∧ c ≤ '9' then some (c.toNat - 48)
  else if 'a' ≤ c ∧ c ≤ 'f' then some (c.toNat - 87)
  else if 'A' ≤ c ∧ c ≤ 'F' then some (c.toNat - 55)
  else none

def pyLiteralDecode : List Char → Option (List Char)
  | [] => some []
  | '"' :: _ => none
  | '\n' :: _ => none
  | '\r' :: _ => none
  | ['\\'] => none
  | '\\' :: e :: rest =>
    if e = 'n' then (pyLiteralDecode rest).map ('\n' :: ·)
    else if e = 't' then (pyLiteralDecode rest).map ('\t' :: ·)
    else if e = 'r' then (pyLiteralDecode rest).map ('\r' :: ·)
    else if e = '\\' then (pyLiteralDecode rest).map ('\\' :: ·)
    else if e = '\'' then (pyLiteralDecode rest).map ('\'' :: ·)
    else if e = '"' then (pyLiteralDecode rest).map ('"' :: ·)
    else if e = 'a' then (pyLiteralDecode rest).map ('\x07' :: ·)
    else if e = 'b' then (pyLiteralDecode rest).map ('\x08' :: ·)
    else if e = 'f' then (pyLiteralDecode rest).map ('\x0C' :: ·)
    else if e = 'v' then (pyLiteralDecode rest).map ('\x0B' :: ·)
    else if e = '\n' then pyLiteralDecode rest
    else if e = 'x' then
      match rest with
      | h1 :: h2 :: rest2 =>
        match hexVal h1, hexVal h2 with
        | some a, some b => (pyLiteralDecode rest2).map (Char.ofNat (16 * a + b) :: ·)
        | _, _ => none
      | _ => none
    else if isOctDigit e then
      match rest with
      | d2 :: d3 :: rest2 =>
        if isOctDigit d2 ∧ isOctDigit d3 then
          (pyLiteralDecode rest2).map
            (Char.ofNat (64 * octVal e + 8 * octVal d2 + octVal d3) :: ·)
        else if isOctDigit d2 then
          (pyLiteralDecode (d3 :: rest2)).map (Char.ofNat (8 * octVal e + octVal d2) :: ·)
        else (pyLiteralDecode (d2 :: d3 :: rest2)).map (Char.ofNat (octVal e) :: ·)
      | [d2] =>
        if isOctDigit d2 then (pyLiteralDecode []).map (Char.ofNat (8 * octVal e + octVal d2) :: ·)
        else (pyLiteralDecode [d2]).map (Char.ofNat (octVal e) :: ·)
      | [] => some [Char.ofNat (octVal e)]
    else if e = 'u' ∨ e = 'U' ∨ e = 'N' then none
    else (pyLiteralDecode rest).map (fun t => '\\' :: e :: t)
  | c :: rest => (pyLiteralDecode rest).map (c :: ·)

/-- The empty error-code mapping (the source's default when the external
JSON file cannot be loaded is `{}`). -/
def noMapping : List Char → Option Int := fun _ => none

/-- A one-entry error-code mapping for concrete evaluations: `ERRCODE_A`
maps to 1 and nothing else is present. -/
def cmapA : List Char → Option Int :=
  fun c => if c = pstr "ERRCODE_A" then some 1 else none

/-! # Helper lemmas -/

theorem firstIdxFrom_lt_length {q : Char → Bool} :
    ∀ {l : List Char} {k : Nat}, firstIdxFrom q l = some k → k < l.length := by
  intro l
  induction l with
  | nil => intro k h; simp [firstIdxFrom] at h
  | cons c rest ih =>
    intro k h
    unfold firstIdxFrom at h
    by_cases hc : q c
    · simp [hc] at h
      simp only [List.length_cons]
      omega
    · simp [hc] at h
      obtain ⟨j, hj, rfl⟩ := h
      have := ih hj
      simp
      omega

theorem firstIdxFrom_isSome_of_mem {q : Char → Bool} {a : Char} :
    ∀ {l : List Char}, a ∈ l → q a = true → (firstIdxFrom q l).isSome := by
  intro l
  induction l with
  | nil => intro h; simp at h
  | cons c rest ih =>
    intro hmem hq
    unfold firstIdxFrom
    by_cases hc : q c
    · simp [hc]
    · rcases List.mem_cons.mp hmem with rfl | hmem2
      · exact absurd hq hc
      · simp [hc]
        have := ih hmem2 hq
        cases hf : firstIdxFrom q rest with
        | none => rw [hf] at this; simp at this
        | some k => simp

theorem firstIdxFrom_cons_ne_zero {q : Char → Bool} {c : Char} {rest : List Char}
    {k : Nat} (hc : q c = false) (h : firstIdxFrom q (c :: rest) = some k) :
    1 ≤ k := by
  unfold firstIdxFrom at h
  simp [hc] at h
  obtain ⟨j, _, rfl⟩ := h
  omega

theorem quoteStop_ge (s : List Char) :
    ∀ (fuel pos : Nat), pos ≤ quoteStop s fuel pos := by
  intro fuel
  induction fuel with
  | zero => intro pos; simp [quoteStop]
  | succ n ih =>
    intro pos
    unfold quoteStop
    split_ifs with h1 h2
    · exact le_refl pos
    · exact le_trans (Nat.le_succ pos) (ih (pos + 1))
    · exact le_refl pos

theorem quoteStop_le (s : List Char) :
    ∀ (fuel pos : Nat), pos ≤ s.length → quoteStop s fuel pos ≤ s.length := by
  intro fuel
  induction fuel with
  | zero => intro pos h; simpa [quoteStop] using h
  | succ n ih =>
    intro pos h
    unfold quoteStop
    split_ifs with h1 h2
    · exact h
    · exact ih (pos + 1) h1
    · exact h

theorem ffceoLoop_le (s : List Char) :
    ∀ (fuel pos count : Nat), pos ≤ s.length + 1 →
      ffceoLoop s fuel pos count ≤ s.length + 1 := by
  intro fuel
  induction fuel with
  | zero => intro pos count h; simpa [ffceoLoop] using h
  | succ n ih =>
    intro pos count h
    unfold ffceoLoop
    split_ifs with h1 h2 h3 h4
    · exact ih _ _ (by omega)
    · exact ih _ _ (by omega)
    · refine ih _ _ ?_
      have : quoteStop s (s.length + 1) (pos + 1) ≤ s.length :=
        quoteStop_le s _ _ (by omega)
      omega
    · exact ih _ _ (by omega)
    · exact h

theorem ffceoLoop_ge (s : List Char) :
    ∀ (fuel pos count : Nat), pos ≤ ffceoLoop s fuel pos count := by
  intro fuel
  induction fuel with
  | zero => intro pos count; simp [ffceoLoop]
  | succ n ih =>
    intro pos count
    unfold ffceoLoop
    split_ifs with h1 h2 h3 h4
    · exact le_trans (Nat.le_succ pos) (ih _ _)
    · exact le_trans (Nat.le_succ pos) (ih _ _)
    · refine le_trans ?_ (ih _ _)
      have := quoteStop_ge s (s.length + 1) (pos + 1)
      omega
    · exact le_trans (Nat.le_succ pos) (ih _ _)
    · exact le_refl pos

theorem balancedScan_le (s : List Char) :
    ∀ (fuel pos count : Nat), pos ≤ s.length + 1 →
      balancedScan s fuel pos count ≤ s.length + 1 := by
  intro fuel
  induction fuel with
  | zero => intro pos count h; simpa [balancedScan] using h
  | succ n ih =>
    intro pos count h
    unfold balancedScan
    split_ifs with h1 h2 h3 h4
    · exact ih _ _ (by omega)
    · exact ih _ _ (by omega)
    · refine ih _ _ ?_
      have : quoteStop s (s.length + 1) (pos + 1) ≤ s.length :=
        quoteStop_le s _ _ (by omega)
      omega
    · exact ih _ _ (by omega)
    · exact h

/-! # Claims -/

/-- C5: `split_arguments` never splits on a comma that lies inside a
double-quoted region or inside parentheses.  At the loop level, a step on
`,` from any state whose in-string flag is set or whose parenthesis depth
is positive leaves the argument list unchanged (the comma is accumulated
into the current argument instead); and the spec's two examples evaluate
as stated. -/
theorem c5_no_split_in_quotes_or_parens :
    (∀ st : SplitState, st.inString = true ∨ 0 < st.depth →
      (splitStep st ',').args = st.args) ∧
    split_arguments (pstr "\"a,b\", c") = [pstr "\"a,b\"", pstr "c"] ∧
    split_arguments (pstr "f(x,y), g(z)") = [pstr "f(x,y)", pstr "g(z)"] := by
  refine ⟨?_, by decide, by decide⟩
  intro st h
  have c1 : ¬((',' : Char) = '\\') := by decide
  have c2 : ¬((',' : Char) = '"') := by decide
  have c3 : ¬((',' : Char) = '(') := by decide
  have c4 : ¬((',' : Char) = ')') := by decide
  have c5 : ¬((',' : Char) = '?') := by decide
  have c6 : ¬((',' : Char) = ':') := by decide
  by_cases he : st.escape
  · simp [splitStep, he]
  · by_cases hs : st.inString
    · simp [splitStep, he, hs, c1]
    · have hd : st.depth ≠ 0 := by
        rcases h with h | h
        · exact absurd h hs
        · omega
      simp [splitStep, he, hs, c1, c2, c3, c4, c5, c6, hd]

/-- Witness for C5 at a concrete state: inside parentheses (depth 1) a
comma does not emit an argument. -/
theorem c5_no_split_in_quotes_or_parens_witness :
    (splitStep ⟨[], [], 1, 0, false, false⟩ ',').args = [] :=
  c5_no_split_in_quotes_or_parens.1 ⟨[], [], 1, 0, false, false⟩ (Or.inr (by decide))

/-- Counterexample to C2: the ternary-depth counter does affect comma
splitting.  On `a ? b, c` (one unmatched `?` before the comma) the comma
at depth 0 outside quotes is not treated as a separator, so the result is
a single argument, not the `['a ? b', 'c']` the claim asserts. -/
theorem c2_ternary_counterexample :
    split_arguments (pstr "a ? b, c") = [pstr "a ? b, c"] ∧
    split_arguments (pstr "a ? b, c") ≠ [pstr "a ? b", pstr "c"] := by decide

/-- C2 amended: the ternary-depth counter in `split_arguments` does gate
comma splitting.  With the escape flag clear, outside a quoted region and
at parenthesis depth 0, a step on `,` emits the current argument exactly
when the ternary depth is 0; with a positive ternary depth the comma is
accumulated instead, as the concrete example `a ? b, c` shows. -/
theorem c2_ternary_gates_comma :
    (∀ st : SplitState, st.escape = false → st.inString = false → st.depth = 0 →
      (splitStep st ',').args =
        (if st.ternary = 0 then st.args ++ [pyStrip st.current] else st.args)) ∧
    split_arguments (pstr "a ? b, c") = [pstr "a ? b, c"] := by
  refine ⟨?_, by decide⟩
  intro st he hs hd
  have c1 : ¬((',' : Char) = '\\') := by decide
  have c2 : ¬((',' : Char) = '"') := by decide
  have c3 : ¬((',' : Char) = '(') := by decide
  have c4 : ¬((',' : Char) = ')') := by decide
  have c5 : ¬((',' : Char) = '?') := by decide
  have c6 : ¬((',' : Char) = ':') := by decide
  by_cases ht : st.ternary = 0
  · simp [splitStep, he, hs, hd, ht, c1, c2, c3, c4, c5, c6]
  · simp [splitStep, he, hs, hd, ht, c1, c2, c3, c4, c5, c6]

/-- Witness for C2's amended theorem at a concrete state with ternary
depth 1: the comma is not a separator. -/
theorem c2_ternary_gates_comma_witness :
    (splitStep ⟨[], pstr "a ", 0, 1, false, false⟩ ',').args = [] := by
  have h := c2_ternary_gates_comma.1 ⟨[], pstr "a ", 0, 1, false, false⟩ rfl rfl rfl
  simpa using h

/-- Counterexample to C4: `find_function_calls` has no word-boundary
check.  In `myerrmsg("x")` with candidate set `{errmsg}` the occurrence
of `errmsg` inside the longer identifier `myerrmsg` is reported as a
call, where the claim asserts none is. -/
theorem c4_no_word_boundary_counterexample :
    find_function_calls (pstr "myerrmsg(\"x\")") [pstr "errmsg"] ≠ [] ∧
    (find_function_calls (pstr "myerrmsg(\"x\")") [pstr "errmsg"]).map Prod.fst =
      [pstr "errmsg"] := by decide

/-- C4 amended: the pattern of `find_function_calls` is
`(name1|...)\s*\(` with no `\b`: any occurrence of a candidate name
followed by optional whitespace and `(` is reported, even when the
occurrence is embedded in a longer identifier and even when whitespace
separates the name from the parenthesis. -/
theorem c4_substring_match :
    find_function_calls (pstr "myerrmsg(\"x\")") [pstr "errmsg"] =
      [(pstr "errmsg", pstr "\"x\"")] ∧
    find_function_calls (pstr "xerrmsg (y)") [pstr "errmsg"] =
      [(pstr "errmsg", pstr "y")] := by decide

/-- Counterexample to C3: the `log` field is not the captured statement
verbatim.  A statement containing the two-character escape `\n` has it
deleted by `preprocess_log` before the record is built. -/
theorem c3_log_not_verbatim_counterexample :
    (extract_info_from_log pyLiteralDecode noMapping
        (pstr "elog(LOG, \"a\\nb\")")).log ≠ pstr "elog(LOG, \"a\\nb\")" ∧
    (extract_info_from_log pyLiteralDecode noMapping
        (pstr "elog(LOG, \"a\\nb\")")).log = pstr "elog(LOG, \"ab\")" := by decide

/-- C3 amended: the record's `log` field equals `preprocess_log` of the
captured statement — the statement with each two-character `\n` escape
removed, each remaining `\r\n` escape removed, and doubled backslashes
collapsed — so a statement is reported verbatim only when it contains
none of those sequences. -/
theorem c3_log_eq_preprocess
    (decode : List Char → Option (List Char)) (m : List Char → Option Int)
    (log : List Char) :
    (extract_info_from_log decode m log).log = preprocess_log log := by
  unfold extract_info_from_log classifyLog
  split_ifs with h1 h2
  · cases extract_ereport decode m (preprocess_log log) <;> rfl
  · cases extract_elog decode (preprocess_log log) <;> rfl
  · rfl

/-- C6: `extract_info_from_log` is a total function (the embedding is a
Lean function, so termination and freedom from uncontrolled exceptions
hold by construction) and returns exactly one record, whose
`script_parse_error` field is either `none` (success) or exactly one of
the three failure reasons. -/
theorem c6_total_outcome
    (decode : List Char → Option (List Char)) (m : List Char → Option Int)
    (log : List Char) :
    (extract_info_from_log decode m log).script_parse_error = none ∨
    (extract_info_from_log decode m log).script_parse_error =
      some (pstr "Unknown log type") ∨
    (extract_info_from_log decode m log).script_parse_error =
      some (pstr "Failed to parse ereport log") ∨
    (extract_info_from_log decode m log).script_parse_error =
      some (pstr "Failed to parse elog log") := by
  unfold extract_info_from_log classifyLog
  split_ifs with h1 h2
  · cases extract_ereport decode m (preprocess_log log)
    · right; right; left; rfl
    · left; rfl
  · cases extract_elog decode (preprocess_log log)
    · right; right; right; rfl
    · left; rfl
  · right; left; rfl

/-- C8: fail-soft escape decoding.  When the first message sub-argument
is surrounded by double quotes, the template is the decoder's output on
the quote-stripped interior when decoding succeeds and the raw
quote-stripped interior itself when decoding fails; and whether
`extract_ereport` / `extract_elog` succeed at all never depends on the
decoder, so a decoding failure alone can never produce a parse failure in
either path. -/
theorem c8_decode_fail_soft :
    (∀ (d : List Char → Option (List Char)) (raw : List Char),
      raw.head? = some '"' → raw.getLast? = some '"' →
      decodeTemplate d raw =
        (match d ((raw.drop 1).dropLast) with
         | some t => t
         | none => (raw.drop 1).dropLast)) ∧
    (∀ (d₁ d₂ : List Char → Option (List Char)) (m : List Char → Option Int)
      (log : List Char),
      (extract_ereport d₁ m log).isSome = (extract_ereport d₂ m log).isSome) ∧
    (∀ (d₁ d₂ : List Char → Option (List Char)) (log : List Char),
      (extract_elog d₁ log).isSome = (extract_elog d₂ log).isSome) := by
  refine ⟨?_, ?_, ?_⟩
  · intro d raw h1 h2
    simp [decodeTemplate, h1, h2]
  · intro d1 d2 m log
    unfold extract_ereport ereportBody ereportArgs
    split_ifs <;> simp
  · intro d1 d2 log
    unfold extract_elog
    cases elogSearch log (log.length + 1) 0 with
    | none => rfl
    | some g =>
      obtain ⟨g1, g2⟩ := g
      cases hsp : split_arguments (pyStrip g2) <;> simp [hsp]

/-- Witness for C8 at a concrete quoted argument and a decoder that
always fails: the raw quote-stripped text is kept. -/
theorem c8_decode_fail_soft_witness :
    decodeTemplate (fun _ => none) (pstr "\"x\"") = pstr "x" := by
  have h := c8_decode_fail_soft.1 (fun _ => none) (pstr "\"x\"") (by decide) (by decide)
  exact h.trans (by decide)

/-- C9: the balanced-parenthesis scans terminate (they are total Lean
functions) and stay in bounds.  `find_function_call_end_offset` applied
at any position inside the text returns an offset at most the text
length, and the capture loop of `extract_logging_statements`
(`captureEnd`, lines 178-191) stops at an `end_index` at most
`length + 1` even on unbalanced input, so scanning can continue. -/
theorem c9_scan_bounds :
    (∀ (s : List Char) (p : Nat), p ≤ s.length →
      find_function_call_end_offset s p ≤ s.length) ∧
    (∀ (code : List Char) (i : Nat), i ≤ code.length →
      captureEnd code i ≤ code.length + 1) := by
  constructor
  · intro s p hp
    unfold find_function_call_end_offset
    cases hf : firstIdxFrom (fun c => c = '(') (s.drop p) with
    | none => exact hp
    | some k =>
      have hk := firstIdxFrom_lt_length hf
      rw [List.length_drop] at hk
      have hle := ffceoLoop_le s (s.length + 1) (p + k + 1) 1 (by omega)
      show ffceoLoop s (s.length + 1) (p + k + 1) 1 - 1 ≤ s.length
      omega
  · intro code i hi
    unfold captureEnd
    exact balancedScan_le code (code.length + 1) i 1 (by omega)

/-- Witness for C9 at a concrete unbalanced input. -/
theorem c9_scan_bounds_witness :
    find_function_call_end_offset (pstr "f(x") 0 ≤ (pstr "f(x").length ∧
    captureEnd (pstr "f(x") 0 ≤ (pstr "f(x").length + 1 :=
  ⟨c9_scan_bounds.1 (pstr "f(x") 0 (by decide),
   c9_scan_bounds.2 (pstr "f(x") 0 (by decide)⟩

/-- One loop iteration of `extract_ereport` either leaves the code fields
unchanged (message or unrecognised calls, lines 269-285) or sets
`errcode` and conditionally `errcode_numeric` (lines 286-290). -/
theorem ereportStep_code_fields
    (d : List Char → Option (List Char)) (m : List Char → Option Int)
    (st : EreportFold) (call : List Char × List Char) :
    ((ereportStep d m st call).errcode = st.errcode ∧
     (ereportStep d m st call).numeric = st.numeric) ∨
    (∃ ec, (ereportStep d m st call).errcode = some ec ∧
      (ereportStep d m st call).numeric =
        (if (pstr "ERRCODE_").isPrefixOf ec then m ec else st.numeric)) := by
  unfold ereportStep
  split_ifs with hm hc
  · cases hsp : split_arguments call.2 with
    | nil => left; exact ⟨rfl, rfl⟩
    | cons s0 rest => left; exact ⟨rfl, rfl⟩
  · right; exact ⟨pyStrip call.2, rfl, rfl⟩
  · left; exact ⟨rfl, rfl⟩

/-- The two code-field invariants of the `extract_ereport` loop are
preserved by the whole `for func in functions` fold. -/
theorem ereportFold_code_inv
    (d : List Char → Option (List Char)) (m : List Char → Option Int)
    (l : List (List Char × List Char)) :
    ∀ st : EreportFold,
      (∀ e, st.errcode = some e → (pstr "ERRCODE_").isPrefixOf e = true →
        st.numeric = m e) →
      (∀ v, st.numeric = some v →
        ∃ c, (pstr "ERRCODE_").isPrefixOf c = true ∧ m c = some v) →
      ((∀ e, (l.foldl (ereportStep d m) st).errcode = some e →
          (pstr "ERRCODE_").isPrefixOf e = true →
          (l.foldl (ereportStep d m) st).numeric = m e) ∧
       (∀ v, (l.foldl (ereportStep d m) st).numeric = some v →
          ∃ c, (pstr "ERRCODE_").isPrefixOf c = true ∧ m c = some v)) := by
  induction l with
  | nil => intro st h1 h2; exact ⟨h1, h2⟩
  | cons call tl ih =>
    intro st h1 h2
    simp only [List.foldl_cons]
    rcases ereportStep_code_fields d m st call with ⟨he, hn⟩ | ⟨ec, he, hn⟩
    · exact ih _ (fun e hc hp => by rw [hn]; exact h1 e (he ▸ hc) hp)
        (fun v hv => h2 v (hn ▸ hv))
    · refine ih _ ?_ ?_
      · intro e hc hp
        rw [he] at hc
        obtain rfl : ec = e := Option.some.inj hc
        rw [hn, if_pos hp]
      · intro v hv
        rw [hn] at hv
        by_cases hp : (pstr "ERRCODE_").isPrefixOf ec
        · rw [if_pos hp] at hv
          exact ⟨ec, hp, hv⟩
        · rw [if_neg hp] at hv
          exact h2 v hv

/-- C7 amended: on every successful `extract_ereport`, the numeric code
is always the mapping's value at some symbol with the `ERRCODE_` prefix,
and whenever the final `errcode` symbol itself has the prefix the numeric
field is exactly its lookup (with `none` for an absent key, and without
the statement failing).  The claim's stronger form — that a non-`none`
numeric forces the final symbol to have the prefix and be a key — fails
when a later code call overwrites the symbol without resetting the
numeric, as the counterexample shows. -/
theorem c7_numeric_from_mapping
    (d : List Char → Option (List Char)) (m : List Char → Option Int)
    (log : List Char) (r : EreportInfo)
    (h : extract_ereport d m log = some r) :
    (∀ e, r.errcode = some e → (pstr "ERRCODE_").isPrefixOf e = true →
      r.errcode_numeric = m e) ∧
    (∀ v, r.errcode_numeric = some v →
      ∃ c, (pstr "ERRCODE_").isPrefixOf c = true ∧ m c = some v) := by
  have hbuild : ∀ args : List (List Char),
      (∀ e, (buildEreport d m args).errcode = some e →
        (pstr "ERRCODE_").isPrefixOf e = true →
        (buildEreport d m args).errcode_numeric = m e) ∧
      (∀ v, (buildEreport d m args).errcode_numeric = some v →
        ∃ c, (pstr "ERRCODE_").isPrefixOf c = true ∧ m c = some v) := by
    intro args
    have hf := ereportFold_code_inv d m
      (find_function_calls (List.intercalate [','] (args.drop 1)) allLogFns)
      ⟨none, [], none, none⟩
      (fun e hc => by simp at hc)
      (fun v hv => by simp at hv)
    exact hf
  unfold extract_ereport ereportBody ereportArgs at h
  split_ifs at h with h1 h2 h3
  injection h with h'
  subst h'
  exact hbuild _

set_option maxRecDepth 4000 in
/-- Counterexample to C7 as stated: with two code sub-calls, a later
`errcode(B)` overwrites the symbol (to `B`, which has no `ERRCODE_`
prefix and is not a key of the mapping) while leaving the numeric value
of the earlier `errcode(ERRCODE_A)` in place, so `errcode_numeric` is
non-`none` although the final symbol fails every condition of the
claim. -/
theorem c7_stale_numeric_counterexample :
    (extract_ereport pyLiteralDecode cmapA
        (pstr "ereport(E, errmsg(\"m\"), errcode(ERRCODE_A), errcode(B))")).map
      (fun r => (r.errcode, r.errcode_numeric)) =
      some (some (pstr "B"), some 1) ∧
    (pstr "ERRCODE_").isPrefixOf (pstr "B") = false ∧
    cmapA (pstr "B") = none := by decide

set_option maxRecDepth 4000 in
/-- Witness for C7's amended theorem at a concrete single-code-call
statement: the numeric field is exactly the mapping lookup of the final
prefixed symbol. -/
theorem c7_numeric_from_mapping_witness :
    (⟨pstr "E", some (pstr "m"), [], some (pstr "ERRCODE_A"), some 1⟩ :
        EreportInfo).errcode_numeric = cmapA (pstr "ERRCODE_A") :=
  (c7_numeric_from_mapping pyLiteralDecode cmapA
      (pstr "ereport(E, errmsg(\"m\"), errcode(ERRCODE_A))")
      ⟨pstr "E", some (pstr "m"), [], some (pstr "ERRCODE_A"), some 1⟩
      (by decide)).1 (pstr "ERRCODE_A") rfl (by decide)

/-- The accumulator of `get_last_function_call_offset`'s loop only ever
grows (`if call_end > last_offset: last_offset = call_end`). -/
theorem gllcoLoop_ge_acc (s : List Char) :
    ∀ (fuel i last : Nat), last ≤ gllcoLoop s fuel i last := by
  intro fuel
  induction fuel with
  | zero => intro i last; simp [gllcoLoop]
  | succ n ih =>
    intro i last
    unfold gllcoLoop
    cases hs : identSearch s (s.length + 1) i with
    | none => exact le_refl last
    | some p =>
      obtain ⟨fs, en⟩ := p
      exact le_trans (le_max_left _ _) (ih en _)

/-- A pattern match at position 0 is what the first search of the loop
returns. -/
theorem identSearch_at_zero {s : List Char} {e : Nat}
    (h : identMatchAt s 0 = some e) (fuel : Nat) :
    identSearch s (fuel + 1) 0 = some (0, e) := by
  unfold identSearch
  rw [h]

/-- A match of `\b[A-Za-z_]\w*\s*\(` at position 0 starts with a letter
or underscore and contains a `(`. -/
theorem identMatchAt_zero_parts {s : List Char} {e : Nat}
    (h : identMatchAt s 0 = some e) :
    ∃ c, s.get? 0 = some c ∧ (c.isAlpha || c = '_') = true ∧
      s.get? (e - 1) = some '(' := by
  unfold identMatchAt at h
  rw [show boundaryAt s 0 = true from by simp [boundaryAt], if_pos rfl] at h
  split at h
  · rename_i c hg
    split_ifs at h with ha hk
    injection h with h'
    refine ⟨c, hg, ha, ?_⟩
    rw [← h']
    simpa using hk
  · exact Option.noConfusion h

/-- Counterexample to C10: on the statement `f("g(", x)` — which begins
with an identifier immediately followed by `(` and contains no escaped
quote — the nested-pattern occurrence `g(` inside the quoted region makes
`get_last_function_call_offset` scan past the outer closing parenthesis
(offset 10, one past the end), while `find_function_call_end_offset`
from 0 returns the outer closing parenthesis at offset 9, so the claimed
equality fails. -/
theorem c10_quoted_overrun_counterexample :
    get_last_function_call_offset (pstr "f(\"g(\", x)") ≠
      find_function_call_end_offset (pstr "f(\"g(\", x)") 0 ∧
    get_last_function_call_offset (pstr "f(\"g(\", x)") = 10 ∧
    find_function_call_end_offset (pstr "f(\"g(\", x)") 0 = 9 ∧
    identMatchAt (pstr "f(\"g(\", x)") 0 = some 2 ∧
    (pstr "f(\"g(\", x)").contains '\\' = false := by decide

/-- C10 amended: for a statement on which the nested-call pattern matches
at position 0 (in particular one that begins with an identifier
immediately followed by `(` ), the offset picked by
`get_last_function_call_offset` is at least — but, as the counterexample
shows, not always equal to — `find_function_call_end_offset` of the
whole statement from position 0: the outer call is itself one of the
scanned nested calls, so its closing-paren offset is a lower bound for
the selected maximum. -/
theorem c10_last_offset_ge (statement : List Char) (e : Nat)
    (h : identMatchAt statement 0 = some e) :
    find_function_call_end_offset statement 0 ≤
      get_last_function_call_offset statement := by
  obtain ⟨c, hc0, hca, hpar⟩ := identMatchAt_zero_parts h
  -- the first parenthesis of the statement is not at position 0
  have hcne : ¬(c = '(') := by
    intro hceq
    rw [hceq] at hca
    exact absurd hca (by decide)
  have hmem : '(' ∈ statement := List.get?_mem hpar
  have hsome : (firstIdxFrom (fun ch => ch = '(') statement).isSome :=
    firstIdxFrom_isSome_of_mem hmem (by simp)
  obtain ⟨k0, hk0⟩ := Option.isSome_iff_exists.mp hsome
  have hk0pos : 1 ≤ k0 := by
    cases hst : statement with
    | nil => rw [hst] at hc0; exact Option.noConfusion hc0
    | cons c' rest =>
      rw [hst] at hc0 hk0
      have hcc : c' = c := by
        have : some c' = some c := hc0
        exact Option.some.inj this
      subst hcc
      exact firstIdxFrom_cons_ne_zero (by simp [hcne]) hk0
  -- find_function_call_end_offset statement 0 is at least k0 ≥ 1
  have hffge : k0 ≤ find_function_call_end_offset statement 0 := by
    unfold find_function_call_end_offset
    rw [show statement.drop 0 = statement from rfl, hk0]
    have := ffceoLoop_ge statement (statement.length + 1) (0 + k0 + 1) 1
    show k0 ≤ ffceoLoop statement (statement.length + 1) (0 + k0 + 1) 1 - 1
    omega
  -- the loop's first search finds the match at 0, whose call end enters
  -- the running maximum, and the maximum only grows afterwards
  have hlo : find_function_call_end_offset statement 0 ≤
      gllcoLoop statement (statement.length + 1) 0 0 := by
    have hstep := identSearch_at_zero h statement.length
    calc find_function_call_end_offset statement 0
        ≤ max 0 (find_function_call_end_offset statement 0) := le_max_right _ _
      _ ≤ gllcoLoop statement statement.length e
            (max 0 (find_function_call_end_offset statement 0)) :=
          gllcoLoop_ge_acc statement statement.length e _
      _ = gllcoLoop statement (statement.length + 1) 0 0 := by
          conv_rhs => rw [gllcoLoop]
          rw [hstep]
  have hne : ¬(gllcoLoop statement (statement.length + 1) 0 0 = 0) := by omega
  show find_function_call_end_offset statement 0 ≤
    (if gllcoLoop statement (statement.length + 1) 0 0 = 0 then
      statement.length - 1 else gllcoLoop statement (statement.length + 1) 0 0)
  rw [if_neg hne]
  exact hlo

/-- Witness for C10's amended theorem on the concrete statement
`f(x)`. -/
theorem c10_last_offset_ge_witness :
    find_function_call_end_offset (pstr "f(x)") 0 ≤
      get_last_function_call_offset (pstr "f(x)") :=
  c10_last_offset_ge (pstr "f(x)") 2 (by decide)

set_option maxRecDepth 8000 in
/-- C1 evaluation at the spec's two example inputs, written exactly as in
the spec and in the repository's own tests, with the trailing semicolon.
Both extractions fail, for every decoder and every mapping: in
`extract_ereport` the text after the keyword then ends in `);` rather
than `)`, failing the parenthesization check of lines 246-249, and in
`extract_elog` the regex `elog\s*\(\s*(.*?)\s*,\s*(.*)\s*\)$` requires a
`)` at the end-of-string anchor, which the final `;` defeats — so the
classifier reports parse failures where the claim, the spec and the
repository's tests (`test_extract_ereport`, `test_extract_elog`) expect
successful records. -/
theorem c1_semicolon_examples_fail
    (d : List Char → Option (List Char)) (m : List Char → Option Int) :
    extract_ereport d m (pstr "ereport(ERROR, errmsg(\"File not found: %s\", filePath), errcode(ERRCODE_FILE_NOT_FOUND));") = none ∧
    (extract_info_from_log d m (pstr "ereport(ERROR, errmsg(\"File not found: %s\", filePath), errcode(ERRCODE_FILE_NOT_FOUND));")).script_parse_error =
      some (pstr "Failed to parse ereport log") ∧
    extract_elog d (pstr "elog(INFO, \"Starting process with ID: %d\", processId);") = none ∧
    (extract_info_from_log d m (pstr "elog(INFO, \"Starting process with ID: %d\", processId);")).script_parse_error =
      some (pstr "Failed to parse elog log") :=
  ⟨rfl, rfl, rfl, rfl⟩
